import Mathlib

/-!
A verification development for the `ureq` HTTP client (`src/lib.rs`,
`src/main.rs`, `src/request.rs`).  The request-builder layer is embedded
directly from `src/request.rs` and `src/lib.rs`.  The engine modules that
the builder calls into (`header.rs`, `unit.rs`, `error.rs`, `body.rs`,
`response.rs`, `agent.rs`) are not part of the source tree; where a
definition corresponds to one of those modules it is modelled from the
specification and marked as such in its doc comment.
-/

set_option autoImplicit false

namespace Ureq

/-! ## Character and list helpers -/

/-- ASCII lowercasing of one character, mirroring Rust's
`eq_ignore_ascii_case` / `to_ascii_lowercase` used for header names. -/
def lowerChar (c : Char) : Char :=
  if 'A' ≤ c ∧ c ≤ 'Z' then Char.ofNat (c.toNat + 32) else c

/-- ASCII lowercasing of a string. -/
def lowerStr (s : String) : String :=
  String.mk (s.data.map lowerChar)

def isSpaceChar (c : Char) : Bool :=
  c == ' ' || c == '\t'

def dropLeadSpaces : List Char → List Char
  | [] => []
  | c :: cs => if isSpaceChar c then dropLeadSpaces cs else c :: cs

/-- Trim ASCII whitespace from both ends of a character list. -/
def trimChars (cs : List Char) : List Char :=
  (dropLeadSpaces (dropLeadSpaces cs.reverse).reverse |>.reverse).reverse

/-- `listStarts pre cs` is true when `pre` is a leading run of `cs`. -/
def listStarts : List Char → List Char → Bool
  | [], _ => true
  | _ :: _, [] => false
  | p :: ps, c :: cs => p == c && listStarts ps cs

/-- Split a character list at the first character satisfying `stop`;
the stopping character stays at the head of the second component. -/
def spanUntil (stop : Char → Bool) : List Char → List Char × List Char
  | [] => ([], [])
  | c :: cs =>
    if stop c then ([], c :: cs)
    else
      let r := spanUntil stop cs
      (c :: r.1, r.2)

/-- Split a character list on every occurrence of `sep`. -/
def splitOnChar (sep : Char) : List Char → List (List Char)
  | [] => [[]]
  | c :: cs =>
    if c == sep then [] :: splitOnChar sep cs
    else
      match splitOnChar sep cs with
      | [] => [[c]]
      | g :: gs => (c :: g) :: gs

def digitVal (c : Char) : Option Nat :=
  if '0' ≤ c ∧ c ≤ '9' then some (c.toNat - 48) else none

def hexVal (c : Char) : Option Nat :=
  if '0' ≤ c ∧ c ≤ '9' then some (c.toNat - 48)
  else if 'A' ≤ c ∧ c ≤ 'F' then some (c.toNat - 55)
  else if 'a' ≤ c ∧ c ≤ 'f' then some (c.toNat - 87)
  else none

def parseDigitsAux : Nat → List Char → Option Nat
  | acc, [] => some acc
  | acc, c :: cs =>
    match digitVal c with
    | some d => parseDigitsAux (acc * 10 + d) cs
    | none => none

/-- Parse a non-empty all-digit character list as a port number. -/
def parsePortChars (cs : List Char) : Option Nat :=
  match cs with
  | [] => none
  | _ => parseDigitsAux 0 cs

/-- Percent-decode a character list (`%XX` becomes the byte `XX`). -/
def decodeChars : List Char → List Char
  | [] => []
  | '%' :: a :: b :: rest =>
    match hexVal a, hexVal b with
    | some x, some y => Char.ofNat (16 * x + y) :: decodeChars rest
    | _, _ => '%' :: decodeChars (a :: b :: rest)
  | c :: rest => c :: decodeChars rest

/-- Uppercase hexadecimal digit for `n < 16`. -/
def hexChar (n : Nat) : Char :=
  if n < 10 then Char.ofNat (48 + n) else Char.ofNat (55 + n)

/-- The UTF-8 byte sequence of one character. -/
def charUtf8 (c : Char) : List Nat :=
  let n := c.toNat
  if n < 128 then [n]
  else if n < 2048 then [192 + n / 64, 128 + n % 64]
  else if n < 65536 then [224 + n / 4096, 128 + (n / 64) % 64, 128 + n % 64]
  else [240 + n / 262144, 128 + (n / 4096) % 64, 128 + (n / 64) % 64, 128 + n % 64]

def utf8BytesList : List Char → List Nat
  | [] => []
  | c :: cs => charUtf8 c ++ utf8BytesList cs

/-- The UTF-8 encoding of a string as a byte list. -/
def utf8Bytes (s : String) : List Nat :=
  utf8BytesList s.data

/-- `%XX` escape of one byte. -/
def percentByte (b : Nat) : List Char :=
  ['%', hexChar (b / 16), hexChar (b % 16)]

def expandBytes : List Nat → List Char
  | [] => []
  | b :: bs => percentByte b ++ expandBytes bs

/-- Characters left unescaped by query-string percent-encoding. -/
def isUnreservedChar (c : Char) : Bool :=
  c.isAlphanum || c == '-' || c == '_' || c == '.' || c == '~'

def encodeQueryChars : List Char → List Char
  | [] => []
  | c :: cs =>
    (if isUnreservedChar c then [c] else expandBytes (charUtf8 c)) ++ encodeQueryChars cs

/-- Percent-encoding of a query-string component (the `qstring` crate's
encoding: unreserved characters pass through, everything else becomes
`%XX` escapes of its UTF-8 bytes, e.g. space becomes `%20`). -/
def url_encode (s : String) : String :=
  String.mk (encodeQueryChars s.data)

/-! ## Header store

Modelled from the spec: `header.rs` is not under `src/`.  §4.1 fixes the
contract: `add` appends preserving insertion order, `get` returns the
first case-insensitive match, `get_all` every match in insertion order,
`has` is case-insensitive containment; values are not normalized. -/

structure Header where
  name : String
  value : String
deriving DecidableEq

/-- Case-insensitive header-name equality. -/
def name_eq (a b : String) : Bool :=
  lowerStr a == lowerStr b

/-- Modelled from the spec: `header::add_header` appends, never overwrites. -/
def add_header (headers : List Header) (h : Header) : List Header :=
  headers ++ [h]

/-- Modelled from the spec: `header::get_header` returns the first value
whose name matches case-insensitively. -/
def get_header (headers : List Header) (name : String) : Option String :=
  (headers.find? fun h => name_eq h.name name).map Header.value

/-- Modelled from the spec: `header::get_all_headers` returns every
matching value in insertion order. -/
def get_all_headers (headers : List Header) (name : String) : List String :=
  (headers.filter fun h => name_eq h.name name).map Header.value

/-- Modelled from the spec: `header::has_header` is case-insensitive
containment. -/
def has_header (headers : List Header) (name : String) : Bool :=
  (get_header headers name).isSome

/-! ## URLs

Modelled from the spec: URL parsing and resolution come from the `url`
crate (`Url::parse` / `Url::join`), outside this repository.  §3 fixes the
resolved-URL data model (scheme, host, port defaulting per scheme, path,
query) and that the target is "absolute or path-only, resolved against a
fixed base"; `BadUrl` covers an unparsable or unresolvable target.  The
model parses `scheme://host[:port][/path][?query]` absolute forms and
resolves path-only and relative forms against the base. -/

structure Url where
  scheme : String
  host : String
  port : Option Nat
  path : String
  query : Option String
deriving DecidableEq

/-- The fixed base URL `http://localhost/` (`URL_BASE` in `src/request.rs`). -/
def URL_BASE : Url :=
  { scheme := "http", host := "localhost", port := none, path := "/", query := none }

/-- Split `scheme://rest` at the first `://`, if present. -/
def splitScheme : List Char → Option (List Char × List Char)
  | [] => none
  | c :: rest =>
    if c = ':' ∧ listStarts ['/', '/'] rest then some ([], rest.drop 2)
    else (splitScheme rest).map fun p => (c :: p.1, p.2)

def validScheme (cs : List Char) : Bool :=
  !cs.isEmpty && cs.all fun c => c.isAlpha

/-- Split a `path?query` character list into path and optional query. -/
def splitPathQuery (cs : List Char) : List Char × Option (List Char) :=
  let r := spanUntil (fun c => c == '?') cs
  match r.2 with
  | [] => (r.1, none)
  | _ :: q => (r.1, some q)

/-- Parse the part after `scheme://` of an absolute URL; fails on an
empty host or a malformed port. -/
def parseAbsoluteRest (scheme : List Char) (rest : List Char) : Option Url :=
  let hr := spanUntil (fun c => c == '/' || c == '?') rest
  let hostport := hr.1
  let tail := hr.2
  if hostport.isEmpty then none
  else
    let hp := spanUntil (fun c => c == ':') hostport
    if hp.1.isEmpty then none
    else
      let port? : Option (Option Nat) :=
        match hp.2 with
        | [] => some none
        | _ :: ps => (parsePortChars ps).map some
      match port? with
      | none => none
      | some port =>
        let pq := splitPathQuery tail
        some { scheme := String.mk scheme, host := String.mk hp.1, port := port,
               path := if pq.1.isEmpty then "/" else String.mk pq.1,
               query := pq.2.map String.mk }

def dropUntilSlash : List Char → List Char
  | [] => []
  | c :: cs => if c == '/' then c :: cs else dropUntilSlash cs

/-- The directory part of a path: everything up to and including the
last `/`. -/
def dirOf (path : String) : List Char :=
  (dropUntilSlash path.data.reverse).reverse

/-- Resolve a relative reference against a base URL. -/
def joinRelative (base : Url) (cs : List Char) : Option Url :=
  match cs with
  | '/' :: rest =>
    let pq := splitPathQuery ('/' :: rest)
    some { base with path := String.mk pq.1, query := pq.2.map String.mk }
  | '?' :: q => some { base with query := some (String.mk q) }
  | _ =>
    let pq := splitPathQuery cs
    some { base with path := String.mk (dirOf base.path ++ pq.1), query := pq.2.map String.mk }

/-- Modelled from the spec: `Url::join` of the `url` crate, restricted to
the grammar above.  Absolute targets replace the base entirely; targets
without a valid scheme are resolved against the base. -/
def urlJoin (base : Url) (s : String) : Option Url :=
  match splitScheme s.data with
  | some p => if validScheme p.1 then parseAbsoluteRest p.1 p.2 else joinRelative base s.data
  | none => joinRelative base s.data

/-! ## Query strings (the `qstring` crate, modelled from the spec) -/

/-- Parse one `name=value` component, percent-decoding both sides. -/
def parsePairChars (cs : List Char) : String × String :=
  let r := spanUntil (fun c => c == '=') cs
  match r.2 with
  | [] => (String.mk (decodeChars r.1), "")
  | _ :: v => (String.mk (decodeChars r.1), String.mk (decodeChars v))

/-- Modelled from the spec: `QString::add_str` parsing of a query string
(an optional leading `?`, then `&`-separated `name=value` pairs). -/
def parseQueryPairs (s : String) : List (String × String) :=
  let cs := match s.data with
    | '?' :: rest => rest
    | other => other
  if cs.isEmpty then [] else (splitOnChar '&' cs).map parsePairChars

def renderPair (p : String × String) : String :=
  url_encode p.1 ++ "=" ++ url_encode p.2

/-- Modelled from the spec: the `qstring` crate's rendering of stored
pairs, in insertion order, percent-encoded, joined by `&`. -/
def renderQString : List (String × String) → String
  | [] => ""
  | [p] => renderPair p
  | p :: q :: rest => renderPair p ++ "&" ++ renderQString (q :: rest)

/-- Modelled from the spec: `unit::combine_query` (`unit.rs` is not under
`src/`).  §4.4/§3: the merged query string keeps any query already in the
URL first, then appends the request's stored pairs, both orders
preserved; empty result renders as the empty string. -/
def combine_query (url : Url) (query : List (String × String)) (mixQueries : Bool) : String :=
  if mixQueries && !query.isEmpty then
    match url.query with
    | some q => "?" ++ q ++ "&" ++ renderQString query
    | none => "?" ++ renderQString query
  else
    match url.query with
    | some q => "?" ++ q
    | none => ""

/-! ## IpVersion, Agent and Request (from `src/request.rs`) -/

inductive IpVersion where
  | V4
  | V6
deriving DecidableEq

/-- `impl Default for IpVersion` in `src/request.rs`: the default is `V6`. -/
def IpVersion.default : IpVersion := IpVersion.V6

/-- Modelled from the spec: `agent.rs` is not under `src/`.  Only the
agent's persistent header list is relevant to the builder (`Request::new`
copies it); the pool and cookie state are not modelled. -/
structure Agent where
  headers : List Header
deriving DecidableEq

def Agent.new : Agent := { headers := [] }

/-- The request description of `src/request.rs` (the `Arc<Mutex<AgentState>>`
handle is omitted: it carries no data the builder layer reads).  Field
defaults mirror Rust's `#[derive(Default)]` plus the custom
`IpVersion` default. -/
structure Request where
  method : String := ""
  path : String := ""
  headers : List Header := []
  query : List (String × String) := []
  timeout_connect : Nat := 0
  timeout_read : Nat := 0
  timeout_write : Nat := 0
  redirects : Nat := 0
  preferred_ip_version : IpVersion := IpVersion.default
deriving DecidableEq

/-- `Request::new` in `src/request.rs`: method, path and the agent's
headers are taken from the arguments, `redirects` is 5, everything else
comes from `Default`. -/
def Request.new (agent : Agent) (method path : String) : Request :=
  { method := method, path := path, headers := agent.headers, redirects := 5 }

/-- Modelled from the spec: `Agent::request` (`agent.rs` is not under
`src/`) constructs the request via `Request::new`. -/
def Agent.request (a : Agent) (method path : String) : Request :=
  Request.new a method path

/-- `Request::build`: "effectively the same as cloning"; in the value
model a clone is the value itself. -/
def Request.build (r : Request) : Request := r

/-- `Request::set`: add a header field (appends via `add_header`).  The
source mutates `self` in place and returns `&mut self`; the embedding
passes the state explicitly. -/
def Request.set (r : Request) (header value : String) : Request :=
  { r with headers := add_header r.headers (Header.mk header value) }

def Request.set_preferred_ip_version (r : Request) (v : IpVersion) : Request :=
  { r with preferred_ip_version := v }

/-- `Request::header`: first value for a set header, case-insensitive. -/
def Request.header (r : Request) (name : String) : Option String :=
  get_header r.headers name

/-- `Request::header_names`: set header names, lowercased. -/
def Request.header_names (r : Request) : List String :=
  r.headers.map fun h => lowerStr h.name

/-- `Request::has`. -/
def Request.has (r : Request) (name : String) : Bool :=
  has_header r.headers name

/-- `Request::all`. -/
def Request.all (r : Request) (name : String) : List String :=
  get_all_headers r.headers name

/-- `Request::query` (named `add_query` here because the record field is
already called `query`): appends one pair via `QString::add_pair`. -/
def Request.add_query (r : Request) (param value : String) : Request :=
  { r with query := r.query ++ [(param, value)] }

/-- `Request::query_str`: appends the pairs parsed from a query string. -/
def Request.add_query_str (r : Request) (q : String) : Request :=
  { r with query := r.query ++ parseQueryPairs q }

/-- `Request::timeout_connect` (setter; renamed for the field clash). -/
def Request.set_timeout_connect (r : Request) (millis : Nat) : Request :=
  { r with timeout_connect := millis }

def Request.set_timeout_read (r : Request) (millis : Nat) : Request :=
  { r with timeout_read := millis }

def Request.set_timeout_write (r : Request) (millis : Nat) : Request :=
  { r with timeout_write := millis }

/-- `Request::redirects` (setter; renamed for the field clash). -/
def Request.set_redirects (r : Request) (n : Nat) : Request :=
  { r with redirects := n }

def Request.get_method (r : Request) : String := r.method

/-- `Request::get_url`: exactly the stored path, not normalized, without
added query parameters. -/
def Request.get_url (r : Request) : String := r.path

/-! ## Errors and responses

Modelled from the spec: `error.rs` and `response.rs` are not under
`src/`.  §7 fixes the taxonomy; the synthetic status for the redirect
limit is fixed at 500 by the doc comment of `Request::redirects` in
`src/request.rs` ("a synthetic 500 error response is produced"); the
`BadUrl` synthetic status is taken as 400 (an unparsable target is the
caller's mistake), the remaining kinds as 500. -/

inductive Error where
  | badUrl (msg : String)
  | connectFailed (msg : String)
  | timeout (msg : String)
  | ioErr (msg : String)
  | protocolError (msg : String)
  | redirectLimitExceeded
deriving DecidableEq

def Error.status : Error → Nat
  | .badUrl _ => 400
  | .connectFailed _ => 500
  | .timeout _ => 500
  | .ioErr _ => 500
  | .protocolError _ => 500
  | .redirectLimitExceeded => 500

def Error.statusText : Error → String
  | .badUrl _ => "Bad URL"
  | .redirectLimitExceeded => "Too Many Redirects"
  | _ => "Error"

/-- The response data model of §3: numeric status, status text, header
list, body bytes (the lazily-consumed reader is modelled by the byte
sequence it yields). -/
structure Response where
  status : Nat
  statusText : String := ""
  headers : List Header := []
  body : List Nat := []
deriving DecidableEq

/-- Modelled from the spec: the synthetic Response a terminal Error is
converted to by `do_call`'s `unwrap_or_else(|e| e.into())` in
`src/request.rs`; it carries no body. -/
def errorResponse (e : Error) : Response :=
  { status := e.status, statusText := e.statusText, headers := [], body := [] }

/-- `Request::to_url` in `src/request.rs`: join the stored path against
`URL_BASE`; a join failure is a `BadUrl` error. -/
def Request.to_url (r : Request) : Except Error Url :=
  match urlJoin URL_BASE r.path with
  | some u => Except.ok u
  | none => Except.error (Error.badUrl r.path)

/-- `pool::DEFAULT_HOST` (`pool.rs` is not under `src/`). -/
def DEFAULT_HOST : String := "localhost"

/-- `Request::get_host`. -/
def Request.get_host (r : Request) : Except Error String :=
  (Request.to_url r).map fun u => if u.host = "" then DEFAULT_HOST else u.host

/-- `Request::get_scheme`. -/
def Request.get_scheme (r : Request) : Except Error String :=
  (Request.to_url r).map fun u => u.scheme

/-- `Request::get_query`: the complete merged query for this request. -/
def Request.get_query (r : Request) : Except Error String :=
  (Request.to_url r).map fun u => combine_query u r.query true

/-- `Request::get_path`. -/
def Request.get_path (r : Request) : Except Error String :=
  (Request.to_url r).map fun u => u.path

/-! ## Charset handling and payloads

Modelled from the spec: `response.rs` (charset extraction) and `body.rs`
(payloads) are not under `src/`.  §4.4: "Text payload charset: attempt to
encode using a charset declared in a `Content-Type` header parameter; on
any encoding failure fall back to UTF-8 silently." -/

def charsetParam : List (List Char) → Option (List Char)
  | [] => none
  | p :: ps =>
    let t := trimChars p
    if listStarts "charset=".data (t.map lowerChar) then some (trimChars (t.drop 8))
    else charsetParam ps

/-- Modelled from the spec: `response::charset_from_content_type` — the
charset parameter of a `Content-Type` header value, defaulting to
`utf-8` when the header or the parameter is absent. -/
def charset_from_content_type (h : Option String) : String :=
  match h with
  | none => "utf-8"
  | some s =>
    match charsetParam (splitOnChar ';' s.data) with
    | some cs => String.mk cs
    | none => "utf-8"

/-- Modelled from the spec: encoding a string under a named charset.  The
model supports the UTF-8 and Latin-1 families; Latin-1 fails on any
character above U+00FF; an unknown charset name fails outright. -/
def tryEncodeCharset (charset : String) (s : String) : Option (List Nat) :=
  let n := String.mk ((trimChars charset.data).map lowerChar)
  if n = "utf-8" ∨ n = "utf8" then some (utf8Bytes s)
  else if n = "iso-8859-1" ∨ n = "latin1" then
    (if s.data.all (fun c => c.toNat < 256) then some (s.data.map Char.toNat) else none)
  else none

/-- Modelled from the spec: the body bytes of a text payload — the
declared charset when it applies, silently falling back to UTF-8. -/
def encodeText (charset : String) (s : String) : List Nat :=
  match tryEncodeCharset charset s with
  | some b => b
  | none => utf8Bytes s

/-- Modelled from the spec: the closed payload variant of §3 — empty,
raw bytes, text with a declared charset, structured data (carried as its
already-serialized bytes), or an arbitrary byte stream of unknown
length. -/
inductive Payload where
  | empty
  | bytes (data : List Nat)
  | text (text : String) (charset : String)
  | json (serialized : List Nat)
  | reader (data : List Nat)
deriving DecidableEq

/-- Modelled from the spec: a body source with a known or unknown
length (`SizedReader` of `body.rs`). -/
structure SizedReader where
  size : Option Nat
  bytes : List Nat
deriving DecidableEq

/-- Modelled from the spec: `Payload::into_read`.  Bytes, text and
structured data have statically known lengths; an empty payload and a
generic reader do not. -/
def Payload.into_read : Payload → SizedReader
  | .empty => { size := none, bytes := [] }
  | .bytes d => { size := some d.length, bytes := d }
  | .text s cs => { size := some (encodeText cs s).length, bytes := encodeText cs s }
  | .json d => { size := some d.length, bytes := d }
  | .reader d => { size := none, bytes := d }

/-! ## The compiled Unit (modelled from the spec, `unit.rs` not under `src/`) -/

inductive Framing where
  | chunked
  | fixedLength (n : Nat)
  | unbounded
deriving DecidableEq

def defaultPort (scheme : String) : Nat :=
  if scheme = "https" then 443 else 80

/-- The `Host` header value: host plus the port when it is not the
scheme's default (§4.4). -/
def hostString (u : Url) : String :=
  match u.port with
  | none => u.host
  | some p => if p = defaultPort u.scheme then u.host else u.host ++ ":" ++ Nat.repr p

/-- Whether the caller explicitly requested chunked framing by setting a
`Transfer-Encoding: chunked` header (§4.4). -/
def is_chunked (r : Request) : Bool :=
  match get_header r.headers "transfer-encoding" with
  | some v => String.mk ((trimChars v.data).map lowerChar) == "chunked"
  | none => false

/-- Modelled from the spec: the protocol headers the compiler injects —
`Content-Length` for a statically known body length, unless chunked was
explicitly requested; nothing for an unknown length. -/
def unitExtraHeaders (r : Request) (size : Option Nat) : List Header :=
  if is_chunked r then []
  else
    match size with
    | some n => [Header.mk "Content-Length" (Nat.repr n)]
    | none => []

/-- Modelled from the spec: `Unit` — the compiled, send-ready form of one
hop: resolved URL, final header set (computed `Host` first, injected
length headers, then the caller's headers with any caller-set `Host`
overridden), and the body framing. -/
structure Unit where
  url : Url
  headers : List Header
  framing : Framing
deriving DecidableEq

/-- Modelled from the spec: `Unit::new` (§4.4). -/
def Unit.new (req : Request) (url : Url) (body : SizedReader) : Ureq.Unit :=
  { url := url,
    headers := Header.mk "Host" (hostString url) ::
      (unitExtraHeaders req body.size ++ req.headers.filter fun h => !(name_eq h.name "host")),
    framing :=
      if is_chunked req then Framing.chunked
      else
        match body.size with
        | some n => Framing.fixedLength n
        | none => Framing.unbounded }

/-! ## The execution engine (modelled from the spec, `unit.rs` not under `src/`)

§4.6: one hop compiles a Unit and exchanges it for a Response; a 3xx
status with a `Location` header while the hop budget is positive follows
the redirect (against the current URL); exhausting the budget while a
redirect is still indicated yields the synthetic redirect-limit outcome;
with a configured budget of 0 the 3xx response is returned directly.
The network is abstracted as a function from compiled Units to
Responses; connection pooling, timeouts and the single stale-connection
retry are not observable at this interface and are not modelled. -/

def redirectIndicated (r : Response) : Bool :=
  (decide (300 ≤ r.status) && decide (r.status < 400)) &&
    (get_header r.headers "location").isSome

/-- The response of one hop: compile the Unit for the current URL and
body, send it. -/
def hopResponse (server : Ureq.Unit → Response) (req : Request) (url : Url)
    (body : SizedReader) : Response :=
  server (Unit.new req url body)

/-- Where the hop's redirect points: the `Location` header resolved
against the current URL. -/
def followTarget (server : Ureq.Unit → Response) (req : Request) (url : Url)
    (body : SizedReader) : Option Url :=
  (get_header (hopResponse server req url body).headers "location").bind
    fun loc => urlJoin url loc

/-- Modelled from the spec: the recursive redirect loop of
`unit::connect`.  `remaining` is the hop budget left; redirect hops are
re-sent with an empty body. -/
def connectLoop (server : Ureq.Unit → Response) (req : Request) :
    Nat → Url → SizedReader → Except Error Response
  | remaining, url, body =>
    let r := hopResponse server req url body
    if (req.redirects != 0) && redirectIndicated r then
      match remaining with
      | 0 => Except.error Error.redirectLimitExceeded
      | remaining' + 1 =>
        match followTarget server req url body with
        | some next => connectLoop server req remaining' next Payload.empty.into_read
        | none => Except.error (Error.badUrl ((get_header r.headers "location").getD ""))
    else Except.ok r

/-- The engine pipeline of `Request::do_call` before error conversion:
resolve the URL, then run the redirect loop.  This is the
Response-or-Error boundary of §6. -/
def connectPipeline (server : Ureq.Unit → Response) (req : Request)
    (payload : Payload) : Except Error Response :=
  match Request.to_url req with
  | Except.error e => Except.error e
  | Except.ok url => connectLoop server req req.redirects url payload.into_read

/-- `Request::do_call` in `src/request.rs`: run the pipeline and convert
a terminal Error into its synthetic Response
(`unwrap_or_else(|e| e.into())`). -/
def Request.do_call (server : Ureq.Unit → Response) (req : Request)
    (payload : Payload) : Response :=
  match connectPipeline server req payload with
  | Except.ok r => r
  | Except.error e => errorResponse e

/-- `Request::call`. -/
def Request.call (server : Ureq.Unit → Response) (req : Request) : Response :=
  Request.do_call server req Payload.empty

/-- `Request::send_bytes`. -/
def Request.send_bytes (server : Ureq.Unit → Response) (req : Request)
    (data : List Nat) : Response :=
  Request.do_call server req (Payload.bytes data)

/-- `Request::send_string`: the charset comes from the request's
`Content-Type` header (case-insensitive lookup), defaulting to UTF-8. -/
def Request.send_string (server : Ureq.Unit → Response) (req : Request)
    (data : String) : Response :=
  Request.do_call server req
    (Payload.text data (charset_from_content_type (Request.header req "content-type")))

/-- `Request::send_json` (the serde serialization itself is outside the
model; the payload carries the serialized bytes). -/
def Request.send_json (server : Ureq.Unit → Response) (req : Request)
    (serialized : List Nat) : Response :=
  Request.do_call server req (Payload.json serialized)

/-- `Request::send`: body from a generic reader. -/
def Request.send (server : Ureq.Unit → Response) (req : Request)
    (data : List Nat) : Response :=
  Request.do_call server req (Payload.reader data)

/-! ## Top-level helpers (`src/lib.rs`) -/

/-- `ureq::request`. -/
def request (method path : String) : Request :=
  Agent.request Agent.new method path

def get (path : String) : Request := request "GET" path

def head (path : String) : Request := request "HEAD" path

def post (path : String) : Request := request "POST" path

def put (path : String) : Request := request "PUT" path

def delete (path : String) : Request := request "DELETE" path

def trace (path : String) : Request := request "TRACE" path

def options (path : String) : Request := request "OPTIONS" path

def connect (path : String) : Request := request "CONNECT" path

def patch (path : String) : Request := request "PATCH" path

/-! ## Builder sessions

An imperative configuration session on one `&mut Request`, used for the
frame-effect claim: commands mutate the request slot in order; `build`
snapshots (clones) it. -/

inductive Cmd where
  | setHeader (n v : String)
  | addQuery (k v : String)
  | addQueryStr (s : String)
  | setTimeoutConnect (n : Nat)
  | setTimeoutRead (n : Nat)
  | setTimeoutWrite (n : Nat)
  | setRedirects (n : Nat)
  | setPreferredIpVersion (v : IpVersion)
deriving DecidableEq

def applyCmd (r : Request) : Cmd → Request
  | .setHeader n v => Request.set r n v
  | .addQuery k v => Request.add_query r k v
  | .addQueryStr s => Request.add_query_str r s
  | .setTimeoutConnect n => Request.set_timeout_connect r n
  | .setTimeoutRead n => Request.set_timeout_read r n
  | .setTimeoutWrite n => Request.set_timeout_write r n
  | .setRedirects n => Request.set_redirects r n
  | .setPreferredIpVersion v => Request.set_preferred_ip_version r v

def applyCmds (r : Request) : List Cmd → Request
  | [] => r
  | c :: cs => applyCmds (applyCmd r c) cs

/-- Run `pre`, snapshot via `build`, run `post` on the original slot;
returns (snapshot, final state of the slot). -/
def buildSession (r : Request) (pre post : List Cmd) : Request × Request :=
  let configured := applyCmds r pre
  (Request.build configured, applyCmds configured post)

/-- Following the claim's words (refinement comparison only): the HTTP
client-error status class, 4xx.  Used to compare the claim's
"client-side error status" against the status the code actually
produces. -/
def clientErrorClass (s : Nat) : Bool :=
  decide (400 ≤ s) && decide (s < 500)

end Ureq

namespace Ureq

/-! ## Helper lemmas on the header store -/

theorem get_header_cons_neg (a : Header) (hs : List Header) (nm : String)
    (ha : name_eq a.name nm = false) :
    get_header (a :: hs) nm = get_header hs nm := by
  simp [get_header, List.find?, ha]

theorem get_header_cons_pos (a : Header) (hs : List Header) (nm : String)
    (ha : name_eq a.name nm = true) :
    get_header (a :: hs) nm = some a.value := by
  simp [get_header, List.find?, ha]

theorem get_header_first_match (pre : List Header) (h : Header) (post : List Header)
    (nm : String) (hpre : ∀ h2 ∈ pre, name_eq h2.name nm = false)
    (hm : name_eq h.name nm = true) :
    get_header (pre ++ h :: post) nm = some h.value := by
  induction pre with
  | nil => simpa using get_header_cons_pos h post nm hm
  | cons a pre ih =>
    have ha : name_eq a.name nm = false := hpre a (by simp)
    rw [List.cons_append, get_header_cons_neg a _ nm ha]
    exact ih fun h2 hh2 => hpre h2 (by simp [hh2])

theorem get_all_headers_append (hs hs' : List Header) (nm : String) :
    get_all_headers (hs ++ hs') nm = get_all_headers hs nm ++ get_all_headers hs' nm := by
  simp [get_all_headers, List.filter_append]

theorem has_header_iff (hs : List Header) (nm : String) :
    has_header hs nm = true ↔ ∃ h ∈ hs, name_eq h.name nm = true := by
  induction hs with
  | nil => simp [has_header, get_header, List.find?]
  | cons a hs ih =>
    by_cases ha : name_eq a.name nm = true
    · simp [has_header, get_header_cons_pos a hs nm ha, ha]
    · have ha' : name_eq a.name nm = false := by
        cases hv : name_eq a.name nm with
        | true => exact absurd hv ha
        | false => rfl
      rw [show has_header (a :: hs) nm = has_header hs nm by
            simp [has_header, get_header_cons_neg a hs nm ha']]
      rw [ih]
      constructor
      · rintro ⟨h, hh, hm⟩; exact ⟨h, by simp [hh], hm⟩
      · rintro ⟨h, hh, hm⟩
        rcases List.mem_cons.mp hh with rfl | hh'
        · exact absurd hm ha
        · exact ⟨h, hh', hm⟩

theorem get_header_eq_none (hs : List Header) (nm : String)
    (h : has_header hs nm = false) : get_header hs nm = none := by
  unfold has_header at h
  cases hg : get_header hs nm with
  | none => rfl
  | some v => rw [hg] at h; simp at h

theorem has_header_append (hs hs' : List Header) (nm : String) :
    has_header (hs ++ hs') nm = (has_header hs nm || has_header hs' nm) := by
  induction hs with
  | nil => simp [has_header, get_header, List.find?]
  | cons a hs ih =>
    cases ha : name_eq a.name nm with
    | true =>
      simp [has_header, List.cons_append, get_header_cons_pos a _ nm ha,
            get_header_cons_pos a hs nm ha]
    | false =>
      simp only [List.cons_append, has_header, get_header_cons_neg a _ nm ha]
      simpa [has_header] using ih

theorem has_header_filter_false (hs : List Header) (nm : String) (p : Header → Bool)
    (h : has_header hs nm = false) : has_header (hs.filter p) nm = false := by
  cases hv : has_header (hs.filter p) nm with
  | false => rfl
  | true =>
    rcases (has_header_iff _ nm).mp hv with ⟨x, hx, hm⟩
    have hx' : x ∈ hs := (List.mem_filter.mp hx).1
    have : has_header hs nm = true := (has_header_iff hs nm).mpr ⟨x, hx', hm⟩
    rw [h] at this
    exact absurd this (by simp)

/-! ## Claim theorems -/

/-- C9: every Request created through Agent::request or a top-level
helper starts with redirect budget 5, connect/read/write timeouts 0,
an empty added-query list, and preferred IP version V6. -/
theorem c9_request_defaults :
    (∀ (a : Agent) (m p : String),
      (Request.new a m p).redirects = 5 ∧
      (Request.new a m p).timeout_connect = 0 ∧
      (Request.new a m p).timeout_read = 0 ∧
      (Request.new a m p).timeout_write = 0 ∧
      (Request.new a m p).query = [] ∧
      (Request.new a m p).preferred_ip_version = IpVersion.V6) ∧
    IpVersion.default = IpVersion.V6 ∧
    (∀ (a : Agent) (m p : String), Agent.request a m p = Request.new a m p) ∧
    (∀ m p, Ureq.request m p = Request.new Agent.new m p) ∧
    (∀ p, Ureq.get p = Ureq.request "GET" p) ∧
    (∀ p, Ureq.head p = Ureq.request "HEAD" p) ∧
    (∀ p, Ureq.post p = Ureq.request "POST" p) ∧
    (∀ p, Ureq.put p = Ureq.request "PUT" p) ∧
    (∀ p, Ureq.delete p = Ureq.request "DELETE" p) ∧
    (∀ p, Ureq.trace p = Ureq.request "TRACE" p) ∧
    (∀ p, Ureq.options p = Ureq.request "OPTIONS" p) ∧
    (∀ p, Ureq.connect p = Ureq.request "CONNECT" p) ∧
    (∀ p, Ureq.patch p = Ureq.request "PATCH" p) :=
  ⟨fun _ _ _ => ⟨rfl, rfl, rfl, rfl, rfl, rfl⟩, rfl, fun _ _ _ => rfl, fun _ _ => rfl,
   fun _ => rfl, fun _ => rfl, fun _ => rfl, fun _ => rfl, fun _ => rfl, fun _ => rfl,
   fun _ => rfl, fun _ => rfl, fun _ => rfl⟩

/-- C10: get_url returns exactly the path string the request was created
with, and adding query parameters or headers leaves it unchanged. -/
theorem c10_get_url_unchanged :
    ∀ (a : Agent) (m p : String) (r : Request) (k v n w s : String),
      Request.get_url (Request.new a m p) = p ∧
      Request.get_url (Request.add_query r k v) = Request.get_url r ∧
      Request.get_url (Request.add_query_str r s) = Request.get_url r ∧
      Request.get_url (Request.set r n w) = Request.get_url r :=
  fun _ _ _ _ _ _ _ _ _ => ⟨rfl, rfl, rfl, rfl⟩

/-- C6: building is by value — build returns an (equal) clone, the
snapshot taken by build equals the configuration applied so far, and the
snapshot is unaffected by whatever configuration happens afterwards. -/
theorem c6_build_by_value :
    ∀ (r : Request) (pre post post' : List Cmd),
      Request.build r = r ∧
      (buildSession r pre post).1 = applyCmds r pre ∧
      (buildSession r pre post).1 = (buildSession r pre post').1 :=
  fun _ _ _ _ => ⟨rfl, rfl, rfl⟩

/-- C3: set appends without overwriting preserving insertion order;
header returns the first case-insensitive match; all returns every match
in insertion order; has is case-insensitive containment; setting
`X-Api-Key` and querying `x-api-key` yields the value, and setting one
name twice makes all() return both values in order. -/
theorem c3_header_store :
    (∀ (r : Request) (n v : String),
      (Request.set r n v).headers = r.headers ++ [Header.mk n v]) ∧
    (∀ (pre : List Header) (h : Header) (post : List Header) (nm : String),
      (∀ h2 ∈ pre, name_eq h2.name nm = false) → name_eq h.name nm = true →
      get_header (pre ++ h :: post) nm = some h.value) ∧
    (∀ (hs hs' : List Header) (nm : String),
      get_all_headers (hs ++ hs') nm = get_all_headers hs nm ++ get_all_headers hs' nm) ∧
    (∀ (hs : List Header) (nm : String),
      has_header hs nm = true ↔ ∃ h ∈ hs, name_eq h.name nm = true) ∧
    (∀ (r0 : Request) (v1 : String), has_header r0.headers "x-api-key" = false →
      Request.header (Request.set r0 "X-Api-Key" v1) "x-api-key" = some v1) ∧
    (∀ (r0 : Request) (nm v1 v2 : String), get_all_headers r0.headers nm = [] →
      Request.all (Request.set (Request.set r0 nm v1) nm v2) nm = [v1, v2]) := by
  refine ⟨fun _ _ _ => rfl, get_header_first_match, get_all_headers_append, has_header_iff,
    ?_, ?_⟩
  · intro r0 v1 hnone
    show get_header (r0.headers ++ [Header.mk "X-Api-Key" v1]) "x-api-key" = some v1
    exact get_header_first_match r0.headers _ [] _
      (fun h2 hh2 => by
        cases hv : name_eq h2.name "x-api-key" with
        | false => rfl
        | true =>
          have : has_header r0.headers "x-api-key" = true :=
            (has_header_iff _ _).mpr ⟨h2, hh2, hv⟩
          rw [hnone] at this
          exact absurd this (by simp))
      (show name_eq "X-Api-Key" "x-api-key" = true by decide)
  · intro r0 nm v1 v2 hempty
    show get_all_headers ((r0.headers ++ [Header.mk nm v1]) ++ [Header.mk nm v2]) nm = [v1, v2]
    rw [get_all_headers_append, get_all_headers_append, hempty]
    simp [get_all_headers, name_eq]

/-- Witness for C3 at concrete inputs from the source doc examples. -/
theorem c3_header_store_witness :
    Request.header (Request.set (Ureq.get "/my_page") "X-Api-Key" "foobar") "x-api-key" =
      some "foobar" ∧
    Request.all (Request.set (Request.set (Ureq.get "/my_page") "X-Forwarded-For" "1.2.3.4")
      "X-Forwarded-For" "2.3.4.5") "X-Forwarded-For" = ["1.2.3.4", "2.3.4.5"] :=
  ⟨c3_header_store.2.2.2.2.1 (Ureq.get "/my_page") "foobar" (by decide),
   c3_header_store.2.2.2.2.2 (Ureq.get "/my_page") "X-Forwarded-For" "1.2.3.4" "2.3.4.5"
     (by decide)⟩

end Ureq

namespace Ureq

/-! ## Helper lemmas on URL resolution and query rendering -/

theorem splitScheme_not_colon (c : Char) (cs : List Char) (hc : ¬ c = ':') :
    splitScheme (c :: cs) = (splitScheme cs).map fun p => (c :: p.1, p.2) := by
  rw [splitScheme, if_neg]
  intro hand
  exact hc hand.1

theorem renderQString_cons (p : String × String) (ps : List (String × String))
    (h : ps ≠ []) : renderQString (p :: ps) = renderPair p ++ "&" ++ renderQString ps := by
  cases ps with
  | nil => exact absurd rfl h
  | cons q rest => rfl

theorem renderQString_append (ps1 ps2 : List (String × String))
    (h1 : ps1 ≠ []) (h2 : ps2 ≠ []) :
    renderQString (ps1 ++ ps2) = renderQString ps1 ++ "&" ++ renderQString ps2 := by
  induction ps1 with
  | nil => exact absurd rfl h1
  | cons p ps1 ih =>
    cases ps1 with
    | nil =>
      rw [List.cons_append, List.nil_append, renderQString_cons p ps2 h2]
      rfl
    | cons x xs =>
      have hne : (x :: xs) ++ ps2 ≠ [] := by simp
      rw [List.cons_append, renderQString_cons p _ hne, ih (by simp),
          renderQString_cons p (x :: xs) (by simp)]
      simp [String.append_assoc]

theorem urlJoin_slash (base : Url) (s : String) (rest : List Char)
    (hd : s.data = '/' :: rest) : urlJoin base s = joinRelative base s.data := by
  unfold urlJoin
  rw [hd, splitScheme_not_colon '/' rest (by decide)]
  cases hs : splitScheme rest with
  | none => simp
  | some p =>
    have h1 : Char.isAlpha '/' = false := by decide
    simp [validScheme, h1]

/-- C4: the resolved URL's query string is the merge of the query already
in the target URL followed by the added query parameters, original pairs
first, added pairs appended, orders preserved and values URL-encoded;
get_query returns this merged string. -/
theorem c4_query_merge :
    (∀ (r : Request) (url : Url), Request.to_url r = Except.ok url →
      Request.get_query r = Except.ok (combine_query url r.query true)) ∧
    (∀ (url : Url) (q : String) (ps : List (String × String)),
      url.query = some q → ps ≠ [] →
      combine_query url ps true = "?" ++ q ++ "&" ++ renderQString ps) ∧
    (∀ (url : Url) (ps : List (String × String)), url.query = none → ps ≠ [] →
      combine_query url ps true = "?" ++ renderQString ps) ∧
    (∀ (ps1 ps2 : List (String × String)), ps1 ≠ [] → ps2 ≠ [] →
      renderQString (ps1 ++ ps2) = renderQString ps1 ++ "&" ++ renderQString ps2) ∧
    (∀ (r : Request) (k v : String),
      (Request.add_query r k v).query = r.query ++ [(k, v)]) ∧
    (∀ (r : Request) (s : String),
      (Request.add_query_str r s).query = r.query ++ parseQueryPairs s) ∧
    (∀ k v, renderQString [(k, v)] = url_encode k ++ "=" ++ url_encode v) ∧
    url_encode "bar baz" = "bar%20baz" := by
  refine ⟨?_, ?_, ?_, renderQString_append, fun _ _ _ => rfl, fun _ _ => rfl,
    fun _ _ => rfl, by decide⟩
  · intro r url h
    unfold Request.get_query
    rw [h]
    rfl
  · intro url q ps hq hps
    have : ps.isEmpty = false := by cases ps with
      | nil => exact absurd rfl hps
      | cons a l => rfl
    simp [combine_query, hq, this]
  · intro url ps hq hps
    have : ps.isEmpty = false := by cases ps with
      | nil => exact absurd rfl hps
      | cons a l => rfl
    simp [combine_query, hq, this]

/-- Witness for C4 on the source doc example: a URL that already carries
`?foo=bar` plus an added `format=json` pair. -/
theorem c4_query_merge_witness :
    Request.get_query (Request.add_query (Ureq.post "https://cool.server/innit?foo=bar")
      "format" "json") = Except.ok "?foo=bar&format=json" := by
  have h := c4_query_merge.1
    (Request.add_query (Ureq.post "https://cool.server/innit?foo=bar") "format" "json")
    { scheme := "https", host := "cool.server", port := none, path := "/innit",
      query := some "foo=bar" } rfl
  rw [h]
  rfl

/-- C8: the target is resolved against the fixed base http://localhost/
(path-only targets get host localhost); when resolution fails, the
failure is a BadUrl error and every URL-dependent operation fails with
it (call's pipeline errors with it and call returns the synthetic
Response derived from it). -/
theorem c8_bad_url :
    (∀ (r : Request), listStarts ['/'] r.path.data = true →
      ∃ url, Request.to_url r = Except.ok url ∧ url.host = "localhost" ∧
        url.scheme = "http") ∧
    (∀ (r : Request) (e : Error), Request.to_url r = Except.error e →
      (∃ m, e = Error.badUrl m) ∧
      Request.get_host r = Except.error e ∧
      Request.get_scheme r = Except.error e ∧
      Request.get_query r = Except.error e ∧
      Request.get_path r = Except.error e ∧
      (∀ (server : Ureq.Unit → Response) (p : Payload),
        connectPipeline server r p = Except.error e ∧
        Request.do_call server r p = errorResponse e)) := by
  constructor
  · intro r h
    obtain ⟨rest, hd⟩ : ∃ rest, r.path.data = '/' :: rest := by
      cases hpd : r.path.data with
      | nil => rw [hpd] at h; simp [listStarts] at h
      | cons c cs =>
        rw [hpd] at h
        have hc : '/' = c := by
          have := h
          simp [listStarts] at this
          exact this
        exact ⟨cs, by rw [← hc]⟩
    have hj := urlJoin_slash URL_BASE r.path rest hd
    rw [hd] at hj
    unfold Request.to_url
    rw [hj]
    unfold joinRelative
    exact ⟨_, rfl, rfl, rfl⟩
  · intro r e he
    have hj : urlJoin URL_BASE r.path = none := by
      cases hj : urlJoin URL_BASE r.path with
      | none => rfl
      | some u =>
        unfold Request.to_url at he
        rw [hj] at he
        exact Except.noConfusion he
    have ht : Request.to_url r = Except.error (Error.badUrl r.path) := by
      unfold Request.to_url
      rw [hj]
    rw [ht] at he
    injection he with he'
    subst he'
    refine ⟨⟨r.path, rfl⟩, ?_, ?_, ?_, ?_, fun server p => ⟨?_, ?_⟩⟩
    · simp [Request.get_host, ht, Except.map]
    · simp [Request.get_scheme, ht, Except.map]
    · simp [Request.get_query, ht, Except.map]
    · simp [Request.get_path, ht, Except.map]
    · simp [connectPipeline, ht]
    · simp [Request.do_call, connectPipeline, ht]

/-- Witness for C8: the unresolvable target `http://` (empty host) fails
as BadUrl through get_host, and a path-only target resolves to host
localhost. -/
theorem c8_bad_url_witness :
    Request.get_host (Ureq.get "http://") = Except.error (Error.badUrl "http://") ∧
    (∃ url, Request.to_url (Ureq.get "/my_page") = Except.ok url ∧
      url.host = "localhost" ∧ url.scheme = "http") :=
  ⟨(c8_bad_url.2 (Ureq.get "http://") (Error.badUrl "http://") rfl).2.1,
   c8_bad_url.1 (Ureq.get "/my_page") (by decide)⟩

end Ureq

namespace Ureq

/-- C2: the engine hands its caller exactly one of a Response or a
terminal Error value — never both — and do_call deterministically turns
that single outcome into the one Response the user sees (genuine
Responses pass through, errors become their synthetic Response). -/
theorem c2_response_xor_error :
    ∀ (server : Ureq.Unit → Response) (r : Request) (p : Payload),
      ((∃ resp, connectPipeline server r p = Except.ok resp) ∨
        (∃ e, connectPipeline server r p = Except.error e)) ∧
      ¬ ((∃ resp, connectPipeline server r p = Except.ok resp) ∧
        (∃ e, connectPipeline server r p = Except.error e)) ∧
      (∀ resp, connectPipeline server r p = Except.ok resp →
        Request.do_call server r p = resp) ∧
      (∀ e, connectPipeline server r p = Except.error e →
        Request.do_call server r p = errorResponse e) := by
  intro server r p
  refine ⟨?_, ?_, ?_, ?_⟩
  · cases h : connectPipeline server r p with
    | ok resp => exact Or.inl ⟨resp, rfl⟩
    | error e => exact Or.inr ⟨e, rfl⟩
  · rintro ⟨⟨resp, hok⟩, ⟨e, herr⟩⟩
    rw [hok] at herr
    exact Except.noConfusion herr
  · intro resp h
    unfold Request.do_call
    rw [h]
  · intro e h
    unfold Request.do_call
    rw [h]

/-- Witness for C2: a server answering 200 reaches the caller as exactly
that Response. -/
theorem c2_response_xor_error_witness :
    Request.do_call (fun _ => { status := 200, statusText := "OK" }) (Ureq.get "/my_page")
      Payload.empty = { status := 200, statusText := "OK" } :=
  (c2_response_xor_error (fun _ => { status := 200, statusText := "OK" })
    (Ureq.get "/my_page") Payload.empty).2.2.1 _ rfl

/-- A server that always redirects. -/
def loopServer : Ureq.Unit → Response := fun _ =>
  { status := 302, statusText := "Found", headers := [Header.mk "Location" "/loop"] }

/-- A request with a redirect budget of 2 into the redirect loop. -/
def reqLoop : Request := Request.set_redirects (Ureq.get "/start") 2

/-- C1 counterexample: at budget exhaustion the synthetic Response has
status 500 — the 5xx server-error class, not a client-side (4xx) error
status, and not distinct from statuses a real server can send. -/
theorem c1_counterexample :
    (Request.do_call loopServer reqLoop Payload.empty).status = 500 ∧
    clientErrorClass (Request.do_call loopServer reqLoop Payload.empty).status = false :=
  ⟨rfl, rfl⟩

theorem connectLoop_exhaust (server : Ureq.Unit → Response) (req : Request)
    (hn : req.redirects ≠ 0)
    (hred : ∀ u b, redirectIndicated (hopResponse server req u b) = true)
    (hfol : ∀ u b, (followTarget server req u b).isSome = true) :
    ∀ (rem : Nat) (url : Url) (body : SizedReader),
      connectLoop server req rem url body = Except.error Error.redirectLimitExceeded := by
  have hb : (req.redirects != 0) = true := by simp [hn]
  intro rem
  induction rem with
  | zero =>
    intro url body
    simp [connectLoop, hred, hb]
  | succ n ih =>
    intro url body
    obtain ⟨next, hnext⟩ := Option.isSome_iff_exists.mp (hfol url body)
    simp [connectLoop, hred, hb, hnext, ih]

/-- C1 (amended): when the hop budget runs out while every hop's response
still indicates a redirect, do_call does not dereference Location (the
statement holds uniformly in the server, hence in whatever Location
holds) and returns the synthetic redirect-limit Response — status 500,
no body — rather than a hard error. -/
theorem c1_amended (server : Ureq.Unit → Response) (req : Request) (url : Url) (p : Payload)
    (hu : Request.to_url req = Except.ok url)
    (hn : req.redirects ≠ 0)
    (hred : ∀ u b, redirectIndicated (hopResponse server req u b) = true)
    (hfol : ∀ u b, (followTarget server req u b).isSome = true) :
    Request.do_call server req p = errorResponse Error.redirectLimitExceeded ∧
    (Request.do_call server req p).status = 500 ∧
    (Request.do_call server req p).body = [] := by
  have hpipe : connectPipeline server req p = Except.error Error.redirectLimitExceeded := by
    unfold connectPipeline
    rw [hu]
    exact connectLoop_exhaust server req hn hred hfol req.redirects url p.into_read
  have hdo : Request.do_call server req p = errorResponse Error.redirectLimitExceeded := by
    unfold Request.do_call
    rw [hpipe]
  exact ⟨hdo, by rw [hdo]; rfl, by rw [hdo]; rfl⟩

/-- Witness for C1 (amended) on the concrete redirect loop. -/
theorem c1_amended_witness :
    Request.do_call loopServer reqLoop Payload.empty =
      errorResponse Error.redirectLimitExceeded ∧
    (Request.do_call loopServer reqLoop Payload.empty).status = 500 ∧
    (Request.do_call loopServer reqLoop Payload.empty).body = [] :=
  c1_amended loopServer reqLoop { URL_BASE with path := "/start" } Payload.empty rfl
    (by decide) (fun _ _ => rfl) (fun _ _ => rfl)

end Ureq

namespace Ureq

theorem has_header_cons_neg (a : Header) (hs : List Header) (nm : String)
    (ha : name_eq a.name nm = false) :
    has_header (a :: hs) nm = has_header hs nm := by
  simp [has_header, get_header_cons_neg a hs nm ha]

/-- C5: a body with statically known length compiles to a Unit carrying
`Content-Length` equal to that length and no `Transfer-Encoding` header —
unless the caller explicitly set `Transfer-Encoding: chunked`, in which
case chunked framing is used and no `Content-Length` is injected. -/
theorem c5_content_length (req : Request) (url : Url) (p : Payload) (n : Nat)
    (hsize : p.into_read.size = some n)
    (hte : has_header req.headers "transfer-encoding" = false) :
    get_header (Unit.new req url p.into_read).headers "content-length" =
      some (Nat.repr n) ∧
    has_header (Unit.new req url p.into_read).headers "transfer-encoding" = false ∧
    (Unit.new req url p.into_read).framing = Framing.fixedLength n ∧
    (∀ d, (Payload.bytes d).into_read.size = some d.length) ∧
    (∀ s cs, (Payload.text s cs).into_read.size = some (encodeText cs s).length) ∧
    (∀ d, (Payload.json d).into_read.size = some d.length) ∧
    (∀ (r2 : Request), get_header r2.headers "transfer-encoding" = some "chunked" →
      (Unit.new r2 url p.into_read).framing = Framing.chunked ∧
      unitExtraHeaders r2 p.into_read.size = []) := by
  have hnone : get_header req.headers "transfer-encoding" = none :=
    get_header_eq_none _ _ hte
  have hch : is_chunked req = false := by simp [is_chunked, hnone]
  have hextra : unitExtraHeaders req p.into_read.size =
      [Header.mk "Content-Length" (Nat.repr n)] := by
    simp [unitExtraHeaders, hch, hsize]
  refine ⟨?_, ?_, ?_, fun _ => rfl, fun _ _ => rfl, fun _ => rfl, ?_⟩
  · show get_header (Header.mk "Host" (hostString url) ::
        (unitExtraHeaders req p.into_read.size ++
          req.headers.filter fun h => !(name_eq h.name "host"))) "content-length" =
      some (Nat.repr n)
    rw [get_header_cons_neg _ _ _
        (show name_eq "Host" "content-length" = false by decide),
      hextra, List.singleton_append,
      get_header_cons_pos _ _ _
        (show name_eq "Content-Length" "content-length" = true by decide)]
  · show has_header (Header.mk "Host" (hostString url) ::
        (unitExtraHeaders req p.into_read.size ++
          req.headers.filter fun h => !(name_eq h.name "host"))) "transfer-encoding" =
      false
    rw [has_header_cons_neg _ _ _
        (show name_eq "Host" "transfer-encoding" = false by decide),
      hextra, List.singleton_append,
      has_header_cons_neg _ _ _
        (show name_eq "Content-Length" "transfer-encoding" = false by decide)]
    exact has_header_filter_false _ _ _ hte
  · simp [Unit.new, hch, hsize]
  · intro r2 hch2
    have hc2 : is_chunked r2 = true := by
      unfold is_chunked
      rw [hch2]
      decide
    exact ⟨by simp [Unit.new, hc2], by simp [unitExtraHeaders, hc2]⟩

/-- Witness for C5: a two-byte body compiles to Content-Length 2 and
fixed-length framing; an explicit chunked request compiles to chunked
framing with no injected Content-Length. -/
theorem c5_content_length_witness :
    get_header (Unit.new (Ureq.post "/my_page") { URL_BASE with path := "/my_page" }
      (Payload.bytes [72, 105]).into_read).headers "content-length" = some (Nat.repr 2) ∧
    has_header (Unit.new (Ureq.post "/my_page") { URL_BASE with path := "/my_page" }
      (Payload.bytes [72, 105]).into_read).headers "transfer-encoding" = false ∧
    (Unit.new (Ureq.post "/my_page") { URL_BASE with path := "/my_page" }
      (Payload.bytes [72, 105]).into_read).framing = Framing.fixedLength 2 ∧
    (Unit.new (Request.set (Ureq.post "/my_page") "Transfer-Encoding" "chunked")
      { URL_BASE with path := "/my_page" }
      (Payload.bytes [72, 105]).into_read).framing = Framing.chunked := by
  have h := c5_content_length (Ureq.post "/my_page") { URL_BASE with path := "/my_page" }
    (Payload.bytes [72, 105]) 2 rfl rfl
  exact ⟨h.1, h.2.1, h.2.2.1, (h.2.2.2.2.2.2
    (Request.set (Ureq.post "/my_page") "Transfer-Encoding" "chunked") rfl).1⟩

/-- C7: send_string takes the charset from the Content-Type header
parameter (default utf-8), the body is encoded with that charset when it
applies, and any failure to interpret or apply it silently falls back to
UTF-8 — charset handling is total and never produces an error. -/
theorem c7_charset :
    (∀ (server : Ureq.Unit → Response) (req : Request) (s : String),
      Request.send_string server req s = Request.do_call server req
        (Payload.text s (charset_from_content_type (Request.header req "content-type")))) ∧
    (∀ (cs t : String) (b : List Nat), tryEncodeCharset cs t = some b →
      encodeText cs t = b) ∧
    (∀ (cs t : String), tryEncodeCharset cs t = none → encodeText cs t = utf8Bytes t) ∧
    (∀ (cs t : String), encodeText cs t = utf8Bytes t ∨
      tryEncodeCharset cs t = some (encodeText cs t)) ∧
    (∀ (cs t : String), (Payload.text t cs).into_read.bytes = encodeText cs t) ∧
    charset_from_content_type none = "utf-8" ∧
    charset_from_content_type (some "text/plain; charset=iso-8859-1") = "iso-8859-1" := by
  refine ⟨fun _ _ _ => rfl, ?_, ?_, ?_, fun _ _ => rfl, rfl, by decide⟩
  · intro cs t b h
    unfold encodeText
    rw [h]
  · intro cs t h
    unfold encodeText
    rw [h]
  · intro cs t
    cases h : tryEncodeCharset cs t with
    | none =>
      refine Or.inl ?_
      unfold encodeText
      rw [h]
    | some b =>
      refine Or.inr ?_
      unfold encodeText
      rw [h]

/-- Witness for C7: Latin-1 encodes `Hällo` to single bytes, an unknown
charset falls back to the UTF-8 bytes. -/
theorem c7_charset_witness :
    encodeText "iso-8859-1" "Hällo" = [72, 228, 108, 108, 111] ∧
    encodeText "bogus" "Hällo" = utf8Bytes "Hällo" ∧
    utf8Bytes "Hällo" = [72, 195, 164, 108, 108, 111] :=
  ⟨c7_charset.2.1 "iso-8859-1" "Hällo" [72, 228, 108, 108, 111] (by decide),
   c7_charset.2.2.1 "bogus" "Hällo" rfl,
   by decide⟩

end Ureq
